import Mathlib

/-!
Shallow embedding of the persistence layer of the EagleAgent repository:
the Firestore-backed namespaced store (`includes/firestore_store.py`,
class `FirestoreStore`) and the timestamped checkpoint saver
(`includes/timestamped_firestore_saver.py`, class `TimestampedFirestoreSaver`).

The remote Firestore collection is modelled as an association list from
document id to document body, together with a set of document ids on which
the client raises (modelling per-call connectivity failures of the external
Firestore client).  A raised Python exception is modelled as `Except.error`.
Timestamps are natural numbers.  Structured values are modelled as flat
string-keyed maps, which is all the store's filter logic inspects.
-/

namespace EagleAgent

/-- A stored structured value: a mapping from field names to atomic values. -/
abbrev Value := List (String × String)

/-- Body of a document in the store collection, with exactly the five fields
written by `FirestoreStore.batch` (PutOp branch, lines 107-113). -/
structure StoreDoc where
  value : Value
  «namespace» : List String
  key : String
  created_at : Nat
  updated_at : Nat
  deriving Repr, DecidableEq

/-- Errors raised by the external Firestore client (spec section 7:
`NotConnected`, remote unavailable). -/
inductive Err where
  | notConnected
  deriving Repr, DecidableEq

/-- State of the store collection: documents keyed by document id, plus the
set of ids on which the remote client currently raises. -/
structure FsDB where
  docs : List (String × StoreDoc)
  failing : List String
  deriving Repr, DecidableEq

/-- `FirestoreStore._make_doc_id` (lines 56-60): join namespace segments with
a slash, then append a colon and the key. -/
def makeDocId (ns : List String) (key : String) : String :=
  String.intercalate "/" ns ++ ":" ++ key

/-- Remove every binding of a document id from the collection. -/
def eraseKey (docId : String) (l : List (String × StoreDoc)) : List (String × StoreDoc) :=
  l.filter (fun p => p.1 ≠ docId)

/-- `document(doc_id).get()`: raises when the client fails on this id,
otherwise returns the document if it exists. -/
def docGet (db : FsDB) (docId : String) : Except Err (Option StoreDoc) :=
  if docId ∈ db.failing then .error .notConnected else .ok (db.docs.lookup docId)

/-- `doc_ref.set(fields)`: replaces the whole document body. -/
def docSet (db : FsDB) (docId : String) (d : StoreDoc) : Except Err FsDB :=
  if docId ∈ db.failing then .error .notConnected
  else .ok { db with docs := (docId, d) :: eraseKey docId db.docs }

/-- `doc_ref.delete()`: removes the document; deleting an absent document
succeeds. -/
def docDelete (db : FsDB) (docId : String) : Except Err FsDB :=
  if docId ∈ db.failing then .error .notConnected
  else .ok { db with docs := eraseKey docId db.docs }

/-- Lexicographic comparison of character sequences, strict. -/
def charListLt : List Char → List Char → Bool
  | [], [] => false
  | [], _ :: _ => true
  | _ :: _, [] => false
  | a :: as, b :: bs => if a < b then true else if a = b then charListLt as bs else false

/-- Strict lexicographic order on strings (code-point order, the order of
Firestore document ids and of Python string comparison). -/
def strLtB (a b : String) : Bool := charListLt a.data b.data

/-- Reflexive lexicographic order on strings. -/
def strLeB (a b : String) : Bool := !(strLtB b a)

/-- `collection.stream()`: Firestore streams the documents of a collection in
ascending document-id order. -/
def streamDocs (db : FsDB) : List (String × StoreDoc) :=
  List.insertionSort (fun p q : String × StoreDoc => strLeB p.1 q.1 = true) db.docs

/-- An Item as returned to callers (`langgraph.store.base.Item`). -/
structure Item where
  value : Value
  key : String
  «namespace» : List String
  created_at : Nat
  updated_at : Nat
  deriving Repr, DecidableEq

/-- A search result Item; `score` is always absent (no vector search). -/
structure SearchItem extends Item where
  score : Option Nat
  deriving Repr, DecidableEq

/-- `FirestoreStore._doc_to_item` (lines 62-74): absent documents map to
`None`; otherwise build an Item from the document body, with the namespace
and key taken from the requesting operation. -/
def docToItem (doc : Option StoreDoc) (ns : List String) (key : String) : Option Item :=
  match doc with
  | Option.none => Option.none
  | some d =>
      some { value := d.value, key := key, «namespace» := ns,
             created_at := d.created_at, updated_at := d.updated_at }

/-- A namespace match condition (`langgraph.store.base.MatchCondition`):
either a prefix or a suffix pattern over the segment sequence. -/
inductive MatchCond where
  | prefixCond (path : List String)
  | suffixCond (path : List String)
  deriving Repr, DecidableEq

/-- A store operation (`langgraph.store.base.Op`, a tagged union).  The
`otherOp` constructor stands for an operation whose runtime type is none of
the four handled kinds, reaching the `else` fallthrough of `batch`. -/
inductive Op where
  | getOp («namespace» : List String) (key : String)
  | putOp («namespace» : List String) (key : String) (value : Option Value)
  | searchOp (namespacePre : List String) (filter : Value) (limit : Nat) (offset : Nat)
  | listNamespacesOp (matchConds : List MatchCond) (maxDepth : Option Nat)
      (limit : Nat) (offset : Nat)
  | otherOp
  deriving Repr, DecidableEq

/-- A result entry of `batch`: `none` for puts, misses and unknown
operations, an Item for gets, lists for searches and namespace listings. -/
inductive Result where
  | none
  | item (it : Item)
  | searchResults (items : List SearchItem)
  | namespaces (nss : List (List String))
  deriving Repr, DecidableEq

/-- Conjunction of the equality `where` filters on `value` fields
(lines 129-132): each filter field must exist in the value and be equal. -/
def matchesFilter (filt : Value) (v : Value) : Bool :=
  filt.all (fun kv => v.lookup kv.1 == some kv.2)

/-- `query.stream()` after the `where` clauses: streamed in document-id
order, keeping documents satisfying every equality filter. -/
def streamQuery (db : FsDB) (filt : Value) : List (String × StoreDoc) :=
  (streamDocs db).filter (fun p => matchesFilter filt p.2.value)

/-- The in-memory namespace check of the search branch (lines 143-148): an
empty requested path is no constraint; otherwise the namespace must be at
least as long and start with the requested path. -/
def prefixMatches (pre ns : List String) : Bool :=
  if pre.isEmpty then true
  else if ns.length < pre.length then false
  else ns.take pre.length == pre

/-- `filtered_docs` of the search branch (lines 138-150): the streamed,
filter-satisfying documents whose namespace matches the requested path. -/
def searchFiltered (db : FsDB) (pre : List String) (filt : Value) :
    List (String × StoreDoc) :=
  (streamQuery db filt).filter (fun p => prefixMatches pre p.2.«namespace»)

/-- Build a `SearchItem` from a stored document (lines 156-164). -/
def toSearchItem (d : StoreDoc) : SearchItem :=
  { value := d.value, key := d.key, «namespace» := d.«namespace»,
    created_at := d.created_at, updated_at := d.updated_at, score := Option.none }

/-- The search branch result (lines 152-166): paginate `filtered_docs` with
the Python slice `[offset : offset + limit]`, then convert to items. -/
def searchResultsFor (db : FsDB) (pre : List String) (filt : Value)
    (limit offset : Nat) : List SearchItem :=
  (((searchFiltered db pre filt).drop offset).take limit).map (fun p => toSearchItem p.2)

/-- The full matching set of a search: every filtered document, converted,
before pagination. -/
def allMatches (db : FsDB) (pre : List String) (filt : Value) : List SearchItem :=
  (searchFiltered db pre filt).map (fun p => toSearchItem p.2)

/-- Python's negative-index suffix slice `ns[-n:]`, as used on line 188:
`n = 0` yields the whole sequence, otherwise the last `n` elements. -/
def suffixSlice (ns : List String) (n : Nat) : List String :=
  if n = 0 then ns else ns.drop (ns.length - n)

/-- One match condition of the list-namespaces branch (lines 182-190). -/
def matchesCond (ns : List String) : MatchCond → Bool
  | .prefixCond path => ns.take path.length == path
  | .suffixCond path => suffixSlice ns path.length == path

/-- All match conditions must hold (lines 180-192). -/
def matchesConds (conds : List MatchCond) (ns : List String) : Bool :=
  conds.all (matchesCond ns)

/-- The `max_depth` truncation of line 194-196, with Python truthiness:
a missing or zero depth leaves the namespace unchanged. -/
def truncateDepth (maxDepth : Option Nat) (ns : List String) : List String :=
  match maxDepth with
  | Option.none => ns
  | some d => if d ≠ 0 ∧ d < ns.length then ns.take d else ns

/-- The processed namespace of every streamed document that passes the match
conditions (lines 171-198), truncated to `max_depth`. -/
def collectedNamespaces (db : FsDB) (conds : List MatchCond) (maxDepth : Option Nat) :
    List (List String) :=
  (streamDocs db).filterMap (fun p =>
    if matchesConds conds p.2.«namespace» then some (truncateDepth maxDepth p.2.«namespace»)
    else Option.none)

/-- Lexicographic comparison of segment sequences, Python tuple ordering. -/
def lexLe : List String → List String → Bool
  | [], _ => true
  | _ :: _, [] => false
  | a :: as, b :: bs => if strLtB a b then true else if a = b then lexLe as bs else false

/-- `sorted(list(namespaces))` of line 201: the deduplicated namespaces in
ascending lexicographic order. -/
def sortedNamespaces (db : FsDB) (conds : List MatchCond) (maxDepth : Option Nat) :
    List (List String) :=
  List.insertionSort (fun a b => lexLe a b = true) (collectedNamespaces db conds maxDepth).dedup

/-- The list-namespaces branch result (lines 200-203): sort, deduplicate,
then apply the Python slice `[offset : offset + limit]`. -/
def listNamespacesFor (db : FsDB) (conds : List MatchCond) (maxDepth : Option Nat)
    (limit offset : Nat) : List (List String) :=
  ((sortedNamespaces db conds maxDepth).drop offset).take limit

/-- One iteration of the dispatch loop of `FirestoreStore.batch`
(lines 84-207): runs a single operation against the collection at time
`now`, producing its result entry and the updated collection, or raising. -/
def runOp (now : Nat) (op : Op) (db : FsDB) : Except Err (Result × FsDB) :=
  match op with
  | .getOp ns key =>
      match docGet db (makeDocId ns key) with
      | .error e => .error e
      | .ok doc =>
          .ok (match docToItem doc ns key with
               | Option.none => Result.none
               | some it => Result.item it, db)
  | .putOp ns key val =>
      match val with
      | Option.none =>
          match docDelete db (makeDocId ns key) with
          | .error e => .error e
          | .ok db1 => .ok (Result.none, db1)
      | some v =>
          match docGet db (makeDocId ns key) with
          | .error e => .error e
          | .ok existing =>
              match docSet db (makeDocId ns key)
                { value := v, «namespace» := ns, key := key,
                  created_at := (match existing with
                    | some d => d.created_at
                    | Option.none => now),
                  updated_at := now } with
              | .error e => .error e
              | .ok db1 => .ok (Result.none, db1)
  | .searchOp pre filt limit offset =>
      .ok (Result.searchResults (searchResultsFor db pre filt limit offset), db)
  | .listNamespacesOp conds maxDepth limit offset =>
      .ok (Result.namespaces (listNamespacesFor db conds maxDepth limit offset), db)
  | .otherOp => .ok (Result.none, db)

/-- `FirestoreStore.batch` (lines 76-209): run the operations in order,
appending one result per operation; a raised exception propagates and stops
the loop. -/
def batch (now : Nat) : List Op → FsDB → Except Err (List Result × FsDB)
  | [], db => .ok ([], db)
  | op :: rest, db =>
      match runOp now op db with
      | .error e => .error e
      | .ok (r, db1) =>
          match batch now rest db1 with
          | .error e => .error e
          | .ok (rs, db2) => .ok (r :: rs, db2)

/-- `store.aget(namespace, key)`: a single-element batch of one GetOp,
returning its result entry (the collection is unchanged). -/
def storeGet (ns : List String) (key : String) (db : FsDB) : Except Err Result :=
  (runOp 0 (.getOp ns key) db).map (fun p => p.1)

/-- `store.aput(namespace, key, value)` issued at time `now`: a
single-element batch of one PutOp, returning the updated collection. -/
def storePut (now : Nat) (ns : List String) (key : String) (val : Option Value)
    (db : FsDB) : Except Err FsDB :=
  (runOp now (.putOp ns key val) db).map (fun p => p.2)

/-- `store.search(namespace_prefix, filter, limit, offset)`: a single-element
batch of one SearchOp, returning its result entry. -/
def storeSearch (pre : List String) (filt : Value) (limit offset : Nat)
    (db : FsDB) : Except Err Result :=
  (runOp 0 (.searchOp pre filt limit offset) db).map (fun p => p.1)

/-- `store.list_namespaces(...)`: a single-element batch of one
ListNamespacesOp, returning its result entry. -/
def storeListNamespaces (conds : List MatchCond) (maxDepth : Option Nat)
    (limit offset : Nat) (db : FsDB) : Except Err Result :=
  (runOp 0 (.listNamespacesOp conds maxDepth limit offset) db).map (fun p => p.1)

/-!
Model of `TimestampedFirestoreSaver` (`includes/timestamped_firestore_saver.py`).

Checkpoint documents are field maps.  A Firestore `set(..., merge=True)` is a
field-wise merge.  `SERVER_TIMESTAMP` resolves to the server time of the
write; the model uses a single clock, so a `put` issued at time `now` has its
sentinel resolve to `now`.  Time is measured in days, so
`timedelta(days=ttl_days)` is the number `ttl_days` itself.
-/

/-- A field value of a checkpoint document: a timestamp, or opaque payload
written by the base checkpoint primitive. -/
inductive FieldVal where
  | time (t : Nat)
  | data (s : String)
  deriving Repr, DecidableEq

/-- A document body in the checkpoint collection: named fields. -/
abbrev FieldMap := List (String × FieldVal)

/-- Write one field of a document, replacing an existing binding. -/
def setField (k : String) (v : FieldVal) : FieldMap → FieldMap
  | [] => [(k, v)]
  | (k', v') :: rest => if k' = k then (k', v) :: rest else (k', v') :: setField k v rest

/-- `doc_ref.set(data, merge=True)`: merge the given fields into the
document, leaving all other fields unchanged. -/
def mergeFields (m : FieldMap) (tsData : FieldMap) : FieldMap :=
  tsData.foldl (fun acc kv => setField kv.1 kv.2 acc) m

/-- A partition document, identified by `"{thread_id}_{checkpoint_ns}"`, with
its `"checkpoints"` sub-collection keyed by checkpoint id. -/
structure PartitionDoc where
  fields : FieldMap
  checkpoints : List (String × FieldMap)
  deriving Repr, DecidableEq

/-- State of the checkpoint collection. -/
structure CkptDB where
  docs : List (String × PartitionDoc)
  deriving Repr, DecidableEq

/-- Update the entry of an association list at a key, creating it from the
default when absent (a Firestore merge-set creates a missing document). -/
def updateAssoc {α : Type} (k : String) (dflt : α) (f : α → α) :
    List (String × α) → List (String × α)
  | [] => [(k, f dflt)]
  | (k', v) :: rest => if k' = k then (k', f v) :: rest else (k', v) :: updateAssoc k dflt f rest

/-- The `configurable` part of a LangGraph config, as read by
`_add_timestamps_to_checkpoint` (lines 35-37): `thread_id` and
`checkpoint_id` may be missing, `checkpoint_ns` defaults to the empty
string. -/
structure Config where
  thread_id : Option String
  checkpoint_ns : String
  checkpoint_id : Option String
  deriving Repr, DecidableEq

/-- Merge fields into the body of a partition document
(`partition_doc_ref.set(timestamp_data, merge=True)`, line 53). -/
def mergeIntoPartition (tsData : FieldMap) (p : PartitionDoc) : PartitionDoc :=
  { p with fields := mergeFields p.fields tsData }

/-- Merge fields into one checkpoint document of a partition's
`"checkpoints"` sub-collection (`checkpoint_doc_ref.set(timestamp_data,
merge=True)`, line 57). -/
def mergeIntoCheckpoint (cid : String) (tsData : FieldMap) (p : PartitionDoc) : PartitionDoc :=
  { p with checkpoints := updateAssoc cid [] (fun m => mergeFields m tsData) p.checkpoints }

/-- The timestamp data of `_add_timestamps_to_checkpoint` (lines 43-49):
`SERVER_TIMESTAMP` resolves to the write time, and the expiry is the current
time plus the configured number of TTL days. -/
def timestampData (ttlDays now : Nat) : FieldMap :=
  [("created_at", FieldVal.time now), ("expire_at", FieldVal.time (now + ttlDays))]

/-- `TimestampedFirestoreSaver._add_timestamps_to_checkpoint` (lines 22-57):
on a truthy result config with truthy `thread_id` and `checkpoint_id`,
merge `{created_at: SERVER_TIMESTAMP, expire_at: now + ttl_days}` into the
partition document `"{thread_id}_{checkpoint_ns}"` and into the checkpoint
document under its `"checkpoints"` sub-collection; otherwise do nothing. -/
def addTimestamps (ttlDays now : Nat) (result : Option Config) (db : CkptDB) : CkptDB :=
  match result with
  | Option.none => db
  | some cfg =>
      match cfg.thread_id, cfg.checkpoint_id with
      | some tid, some cid =>
          if tid = "" ∨ cid = "" then db
          else
            let tsData := timestampData ttlDays now
            let pid := tid ++ "_" ++ cfg.checkpoint_ns
            let db1 : CkptDB := ⟨updateAssoc pid ⟨[], []⟩ (mergeIntoPartition tsData) db.docs⟩
            ⟨updateAssoc pid ⟨[], []⟩ (mergeIntoCheckpoint cid tsData) db1.docs⟩
      | _, _ => db

/-- `TimestampedFirestoreSaver.put` (lines 59-63): delegate to the base
primitive `FirestoreSaver.put` (an external collaborator, abstracted as the
state transformer `base` returning the updated config), then attach the
timestamps; a raised base-write failure propagates before any timestamp
write. -/
def saverPut (ttlDays now : Nat)
    (base : CkptDB → Except Err (Option Config × CkptDB)) (db : CkptDB) :
    Except Err (Option Config × CkptDB) :=
  match base db with
  | .error e => .error e
  | .ok (result, db1) => .ok (result, addTimestamps ttlDays now result db1)

/-- The partition document currently stored under an id. -/
def getPartition (db : CkptDB) (pid : String) : Option PartitionDoc :=
  db.docs.lookup pid

/-- A field of a partition document. -/
def partitionField (db : CkptDB) (pid k : String) : Option FieldVal :=
  (getPartition db pid).bind (fun p => p.fields.lookup k)

/-- The body of a checkpoint document within a partition. -/
def checkpointDoc (db : CkptDB) (pid cid : String) : Option FieldMap :=
  (getPartition db pid).bind (fun p => p.checkpoints.lookup cid)

/-- A field of a checkpoint document. -/
def checkpointField (db : CkptDB) (pid cid k : String) : Option FieldVal :=
  (checkpointDoc db pid cid).bind (fun m => m.lookup k)

/-! ### Helper lemmas about the store model -/

theorem lookup_eraseKey_self (docId : String) (l : List (String × StoreDoc)) :
    (eraseKey docId l).lookup docId = Option.none := by
  induction l with
  | nil => rfl
  | cons p t ih =>
      rcases p with ⟨k, v⟩
      by_cases h : k = docId
      · simpa [eraseKey, List.filter_cons, h] using ih
      · have hne : (docId == k) = false := by
          simp only [beq_eq_false_iff_ne]
          exact fun hh => h hh.symm
        simpa [eraseKey, List.filter_cons, h, List.lookup_cons, hne] using ih

theorem mem_of_lookup {l : List (String × StoreDoc)} {k : String} {d : StoreDoc}
    (h : l.lookup k = some d) : (k, d) ∈ l := by
  rcases List.lookup_eq_some_iff.mp h with ⟨l₁, l₂, rfl, -⟩
  simp

/-- Normal form of a successful non-delete put: the document is rewritten
with the preserved (or fresh) creation time and the write time. -/
theorem storePut_some_eq (now : Nat) (ns : List String) (key : String) (v : Value)
    (db : FsDB) (hfail : makeDocId ns key ∉ db.failing) :
    storePut now ns key (some v) db = .ok
      { docs := (makeDocId ns key,
          { value := v, «namespace» := ns, key := key,
            created_at := (match db.docs.lookup (makeDocId ns key) with
              | some d => d.created_at
              | Option.none => now),
            updated_at := now }) :: eraseKey (makeDocId ns key) db.docs,
        failing := db.failing } := by
  simp [storePut, runOp, docGet, docSet, if_neg hfail, Except.map]

/-- Normal form of a successful delete put. -/
theorem storePut_none_eq (now : Nat) (ns : List String) (key : String)
    (db : FsDB) (hfail : makeDocId ns key ∉ db.failing) :
    storePut now ns key Option.none db = .ok
      { docs := eraseKey (makeDocId ns key) db.docs, failing := db.failing } := by
  simp [storePut, runOp, docDelete, if_neg hfail, Except.map]

/-- Normal form of a successful get. -/
theorem storeGet_eq (ns : List String) (key : String) (db : FsDB)
    (hfail : makeDocId ns key ∉ db.failing) :
    storeGet ns key db = .ok
      (match docToItem (db.docs.lookup (makeDocId ns key)) ns key with
       | Option.none => Result.none
       | some it => Result.item it) := by
  simp [storeGet, runOp, docGet, if_neg hfail, Except.map]

/-! ### Claims about get, put and delete -/

/-- Claim C1: a second put to an existing `(namespace, key)` preserves the
Item's `created_at` (the value read before the write) and sets `updated_at`
to the time of the second write, so the subsequent get returns the new value
with the first get's `created_at` and a later-or-equal `updated_at`. -/
theorem put_put_preserves_created_at
    (db : FsDB) (ns : List String) (key : String) (v1 v2 : Value) (t1 t2 : Nat)
    (hfail : makeDocId ns key ∉ db.failing) (h12 : t1 ≤ t2) :
    ∃ db1 db2 it1 it2,
      storePut t1 ns key (some v1) db = .ok db1 ∧
      storeGet ns key db1 = .ok (Result.item it1) ∧
      storePut t2 ns key (some v2) db1 = .ok db2 ∧
      storeGet ns key db2 = .ok (Result.item it2) ∧
      it2.value = v2 ∧
      it2.created_at = it1.created_at ∧
      it1.updated_at ≤ it2.updated_at := by
  have h1 := storePut_some_eq t1 ns key v1 db hfail
  set c := (match db.docs.lookup (makeDocId ns key) with
    | some d => d.created_at
    | Option.none => t1) with hc
  set doc1 : StoreDoc :=
    { value := v1, «namespace» := ns, key := key, created_at := c, updated_at := t1 }
  set db1 : FsDB :=
    { docs := (makeDocId ns key, doc1) :: eraseKey (makeDocId ns key) db.docs,
      failing := db.failing }
  have hfail1 : makeDocId ns key ∉ db1.failing := hfail
  have hlook1 : db1.docs.lookup (makeDocId ns key) = some doc1 := by
    simp [db1]
  have hg1 : storeGet ns key db1 = .ok (Result.item
      { value := v1, key := key, «namespace» := ns, created_at := c, updated_at := t1 }) := by
    rw [storeGet_eq ns key db1 hfail1, hlook1]
    rfl
  have h2 := storePut_some_eq t2 ns key v2 db1 hfail1
  rw [hlook1] at h2
  set doc2 : StoreDoc :=
    { value := v2, «namespace» := ns, key := key, created_at := c, updated_at := t2 }
  set db2 : FsDB :=
    { docs := (makeDocId ns key, doc2) :: eraseKey (makeDocId ns key) db1.docs,
      failing := db1.failing }
  have hfail2 : makeDocId ns key ∉ db2.failing := hfail
  have hlook2 : db2.docs.lookup (makeDocId ns key) = some doc2 := by
    simp [db2]
  have hg2 : storeGet ns key db2 = .ok (Result.item
      { value := v2, key := key, «namespace» := ns, created_at := c, updated_at := t2 }) := by
    rw [storeGet_eq ns key db2 hfail2, hlook2]
    rfl
  exact ⟨db1, db2, _, _, h1, hg1, h2, hg2, rfl, rfl, h12⟩

/-- Witness for C1 at a concrete input: two writes of a profile under the
same key, at times 3 and 5, on an empty collection. -/
theorem put_put_preserves_created_at_witness :
    ∃ db1 db2 it1 it2,
      storePut 3 ["users"] "tom" (some [("name", "Tom")])
        { docs := [], failing := [] } = .ok db1 ∧
      storeGet ["users"] "tom" db1 = .ok (Result.item it1) ∧
      storePut 5 ["users"] "tom" (some [("name", "Tommy")]) db1 = .ok db2 ∧
      storeGet ["users"] "tom" db2 = .ok (Result.item it2) ∧
      it2.value = [("name", "Tommy")] ∧
      it2.created_at = it1.created_at ∧
      it1.updated_at ≤ it2.updated_at :=
  put_put_preserves_created_at { docs := [], failing := [] } ["users"] "tom"
    [("name", "Tom")] [("name", "Tommy")] 3 5 (by decide) (by decide)

/-- Claim C2: a put of a non-absent value followed by a get returns an Item
holding exactly that value, with `created_at ≤ updated_at` (given that no
stored creation time lies in the future of the write). -/
theorem put_get_roundtrip
    (db : FsDB) (ns : List String) (key : String) (v : Value) (t : Nat)
    (hfail : makeDocId ns key ∉ db.failing)
    (hpast : ∀ p ∈ db.docs, p.2.created_at ≤ t) :
    ∃ db1 it,
      storePut t ns key (some v) db = .ok db1 ∧
      storeGet ns key db1 = .ok (Result.item it) ∧
      it.value = v ∧
      it.created_at ≤ it.updated_at := by
  have h1 := storePut_some_eq t ns key v db hfail
  set c := (match db.docs.lookup (makeDocId ns key) with
    | some d => d.created_at
    | Option.none => t) with hc
  set doc1 : StoreDoc :=
    { value := v, «namespace» := ns, key := key, created_at := c, updated_at := t }
  set db1 : FsDB :=
    { docs := (makeDocId ns key, doc1) :: eraseKey (makeDocId ns key) db.docs,
      failing := db.failing }
  have hfail1 : makeDocId ns key ∉ db1.failing := hfail
  have hlook1 : db1.docs.lookup (makeDocId ns key) = some doc1 := by
    simp [db1]
  have hg1 : storeGet ns key db1 = .ok (Result.item
      { value := v, key := key, «namespace» := ns, created_at := c, updated_at := t }) := by
    rw [storeGet_eq ns key db1 hfail1, hlook1]
    rfl
  have hle : c ≤ t := by
    rw [hc]
    cases hl : db.docs.lookup (makeDocId ns key) with
    | none => exact le_refl t
    | some d => exact hpast _ (mem_of_lookup hl)
  exact ⟨db1, _, h1, hg1, rfl, hle⟩

/-- Witness for C2 at a concrete input: a put at time 4 over a collection
holding an older document under the same key. -/
theorem put_get_roundtrip_witness :
    ∃ db1 it,
      storePut 4 ["users"] "tom" (some [("job", "dev")])
        { docs := [("users:tom",
            { value := [("name", "Tom")], «namespace» := ["users"], key := "tom",
              created_at := 1, updated_at := 2 })],
          failing := [] } = .ok db1 ∧
      storeGet ["users"] "tom" db1 = .ok (Result.item it) ∧
      it.value = [("job", "dev")] ∧
      it.created_at ≤ it.updated_at :=
  put_get_roundtrip
    { docs := [("users:tom",
        { value := [("name", "Tom")], «namespace» := ["users"], key := "tom",
          created_at := 1, updated_at := 2 })],
      failing := [] }
    ["users"] "tom" [("job", "dev")] 4 (by decide) (by decide)

/-- Claim C3: a put of an absent value succeeds whether or not an Item is
stored under the key (idempotent delete), and the following get returns an
absent result, not an error. -/
theorem delete_get_absent
    (db : FsDB) (ns : List String) (key : String) (t : Nat)
    (hfail : makeDocId ns key ∉ db.failing) :
    ∃ db1,
      storePut t ns key Option.none db = .ok db1 ∧
      storeGet ns key db1 = .ok Result.none := by
  have h1 := storePut_none_eq t ns key db hfail
  set db1 : FsDB :=
    { docs := eraseKey (makeDocId ns key) db.docs, failing := db.failing }
  have hfail1 : makeDocId ns key ∉ db1.failing := hfail
  have hlook1 : db1.docs.lookup (makeDocId ns key) = Option.none :=
    lookup_eraseKey_self (makeDocId ns key) db.docs
  have hg1 : storeGet ns key db1 = .ok Result.none := by
    rw [storeGet_eq ns key db1 hfail1, hlook1]
    rfl
  exact ⟨db1, h1, hg1⟩

/-- Witness for C3 at concrete inputs, covering both a previously existing
key and a never-existing key. -/
theorem delete_get_absent_witness :
    (∃ db1,
      storePut 9 ["users"] "tom" Option.none
        { docs := [("users:tom",
            { value := [("name", "Tom")], «namespace» := ["users"], key := "tom",
              created_at := 1, updated_at := 2 })],
          failing := [] } = .ok db1 ∧
      storeGet ["users"] "tom" db1 = .ok Result.none) ∧
    (∃ db1,
      storePut 9 ["users"] "ghost" Option.none { docs := [], failing := [] } = .ok db1 ∧
      storeGet ["users"] "ghost" db1 = .ok Result.none) :=
  ⟨delete_get_absent
      { docs := [("users:tom",
          { value := [("name", "Tom")], «namespace» := ["users"], key := "tom",
            created_at := 1, updated_at := 2 })],
        failing := [] }
      ["users"] "tom" 9 (by decide),
    delete_get_absent { docs := [], failing := [] } ["users"] "ghost" 9 (by decide)⟩

/-! ### Claims about the identifier encoding and the batch executor -/

/-- Claim C9, counterexample: `_make_doc_id` performs no validation and no
escaping, so the two distinct pairs `(["a/b"], "c")` and `(["a","b"], "c")`
produce the same flat document identifier `"a/b:c"`. -/
theorem make_doc_id_collision_counterexample :
    makeDocId ["a/b"] "c" = makeDocId ["a", "b"] "c" ∧
    ((["a/b"] : List String), ("c" : String)) ≠ (["a", "b"], "c") := by
  exact ⟨rfl, by decide⟩

/-- Claim C9 (amended): the identifier encoding joins the namespace segments
with a slash and appends a colon and the key verbatim; it neither validates
nor escapes separator characters, so the flat identifier is not unique per
(namespace, key) pair: distinct pairs whose segments contain a separator can
collide. -/
theorem make_doc_id_no_escaping :
    (∀ ns key, makeDocId ns key = String.intercalate "/" ns ++ ":" ++ key) ∧
    ∃ ns1 key1 ns2 key2, (ns1, key1) ≠ (ns2, key2) ∧
      makeDocId ns1 key1 = makeDocId ns2 key2 :=
  ⟨fun _ _ => rfl, ["a/b"], "c", ["a", "b"], "c", by decide, rfl⟩

/-- A put operation that completes contributes a `None` result entry,
whether it deleted or wrote. -/
theorem runOp_put_result {now : Nat} {ns : List String} {key : String}
    {val : Option Value} {db : FsDB} {r : Result} {db1 : FsDB}
    (h : runOp now (.putOp ns key val) db = .ok (r, db1)) : r = Result.none := by
  cases val with
  | none =>
      simp only [runOp] at h
      split at h
      · cases h
      · cases h
        rfl
  | some v =>
      simp only [runOp] at h
      split at h
      · cases h
      · split at h
        · cases h
        · cases h
          rfl

/-- An operation of unknown type contributes a `None` entry without raising,
and the batch continues with the remaining operations. -/
theorem batch_cons_otherOp (now : Nat) (rest : List Op) (db0 : FsDB) :
    batch now (Op.otherOp :: rest) db0 =
      (batch now rest db0).map (fun p => (Result.none :: p.1, p.2)) := by
  simp only [batch, runOp]
  cases batch now rest db0 <;> rfl

/-- Claim C10: a successful batch returns exactly one result entry per input
operation, in the same order; put operations yield a `None` entry, an
operation of unknown type yields a `None` entry without raising, and
processing continues with the remaining operations after it. -/
theorem batch_results_aligned
    (now : Nat) (ops : List Op) (db : FsDB) (rs : List Result) (db' : FsDB)
    (h : batch now ops db = .ok (rs, db')) :
    rs.length = ops.length ∧
    (∀ (i : Nat) ns key v, ops[i]? = some (Op.putOp ns key v) → rs[i]? = some Result.none) ∧
    (∀ (i : Nat), ops[i]? = some Op.otherOp → rs[i]? = some Result.none) ∧
    (∀ (rest : List Op) (db0 : FsDB),
      batch now (Op.otherOp :: rest) db0 =
        (batch now rest db0).map (fun p => (Result.none :: p.1, p.2))) := by
  induction ops generalizing db rs db' with
  | nil =>
      cases h
      refine ⟨rfl, ?_, ?_, batch_cons_otherOp now⟩
      · intro i ns key v hi
        simp at hi
      · intro i hi
        simp at hi
  | cons op rest ih =>
      simp only [batch] at h
      cases hop : runOp now op db with
      | error e =>
          rw [hop] at h
          cases h
      | ok p =>
          rcases p with ⟨r, db1⟩
          rw [hop] at h
          simp only [] at h
          cases hb : batch now rest db1 with
          | error e =>
              rw [hb] at h
              cases h
          | ok q =>
              rcases q with ⟨rs1, db2⟩
              rw [hb] at h
              simp only [] at h
              cases h
              obtain ⟨hlen, hput, hother, -⟩ := ih db1 rs1 _ hb
              refine ⟨by simp [hlen], ?_, ?_, batch_cons_otherOp now⟩
              · intro i ns key v hi
                cases i with
                | zero =>
                    simp only [List.getElem?_cons_zero, Option.some.injEq] at hi
                    subst hi
                    have hr := runOp_put_result hop
                    simp [hr]
                | succ n =>
                    simp only [List.getElem?_cons_succ] at hi ⊢
                    exact hput n ns key v hi
              · intro i hi
                cases i with
                | zero =>
                    simp only [List.getElem?_cons_zero, Option.some.injEq] at hi
                    subst hi
                    simp only [runOp] at hop
                    cases hop
                    simp
                | succ n =>
                    simp only [List.getElem?_cons_succ] at hi ⊢
                    exact hother n hi

/-- Witness for C10 at a concrete input: a batch of a put, an unknown
operation and a get over an empty collection. -/
theorem batch_results_aligned_witness :
    ([Result.none, Result.none, Result.none] : List Result).length =
      ([Op.putOp ["a"] "k" (some []), Op.otherOp, Op.getOp ["a"] "k2"] : List Op).length ∧
    (∀ (i : Nat) ns key v,
      ([Op.putOp ["a"] "k" (some []), Op.otherOp, Op.getOp ["a"] "k2"] : List Op)[i]? =
        some (Op.putOp ns key v) →
      ([Result.none, Result.none, Result.none] : List Result)[i]? = some Result.none) ∧
    (∀ (i : Nat),
      ([Op.putOp ["a"] "k" (some []), Op.otherOp, Op.getOp ["a"] "k2"] : List Op)[i]? =
        some Op.otherOp →
      ([Result.none, Result.none, Result.none] : List Result)[i]? = some Result.none) ∧
    (∀ (rest : List Op) (db0 : FsDB),
      batch 7 (Op.otherOp :: rest) db0 =
        (batch 7 rest db0).map (fun p => (Result.none :: p.1, p.2))) :=
  batch_results_aligned 7 [Op.putOp ["a"] "k" (some []), Op.otherOp, Op.getOp ["a"] "k2"]
    { docs := [], failing := [] }
    [Result.none, Result.none, Result.none]
    { docs := [("a:k",
        { value := [], «namespace» := ["a"], key := "k",
          created_at := 7, updated_at := 7 })], failing := [] }
    (by rfl)

/-- Claim C6, counterexample: with the client raising on document `"a:k1"`,
the two-member batch `[get ("a","k1"), put ("b","k2")]` raises and returns
no result sequence at all, although its second member alone executes fine;
the failure of the first member thus prevents the execution and reporting of
the second. -/
theorem batch_member_failure_counterexample :
    batch 0 [Op.getOp ["a"] "k1", Op.putOp ["b"] "k2" (some [])]
      { docs := [], failing := ["a:k1"] } = .error Err.notConnected ∧
    (∃ rs db', batch 0 [Op.putOp ["b"] "k2" (some [])]
      { docs := [], failing := ["a:k1"] } = .ok (rs, db')) := by
  exact ⟨rfl, ⟨_, _, rfl⟩⟩

/-- Claim C6 (amended): batch members are executed sequentially with no
per-member error handling: when a member raises, the error propagates out of
the batch call, the members after it are not executed, and no result
sequence is returned, not even for the members already executed. -/
theorem batch_member_failure_aborts
    (now : Nat) (ops1 : List Op) (op : Op) (rest : List Op) (db db1 : FsDB)
    (rs1 : List Result) (e : Err)
    (h1 : batch now ops1 db = .ok (rs1, db1))
    (h2 : runOp now op db1 = .error e) :
    batch now (ops1 ++ op :: rest) db = .error e := by
  induction ops1 generalizing db rs1 with
  | nil =>
      cases h1
      simp [batch, h2]
  | cons o t ih =>
      simp only [batch] at h1
      cases hop : runOp now o db with
      | error e' =>
          rw [hop] at h1
          cases h1
      | ok p =>
          rcases p with ⟨r, dbm⟩
          rw [hop] at h1
          simp only [] at h1
          cases hb : batch now t dbm with
          | error e' =>
              rw [hb] at h1
              cases h1
          | ok q =>
              rcases q with ⟨rs', db2⟩
              rw [hb] at h1
              simp only [] at h1
              cases h1
              have hres := ih dbm rs' hb
              rw [List.cons_append]
              simp [batch, hop, hres]

/-- Witness for C6 (amended) at a concrete input: one successful put, then a
member raising on document `"a:k1"`, then one further member. -/
theorem batch_member_failure_aborts_witness :
    batch 0 ([Op.putOp ["b"] "k2" (some [])] ++
        Op.getOp ["a"] "k1" :: [Op.getOp ["b"] "k2"])
      { docs := [], failing := ["a:k1"] } = .error Err.notConnected :=
  batch_member_failure_aborts 0 [Op.putOp ["b"] "k2" (some [])]
    (Op.getOp ["a"] "k1") [Op.getOp ["b"] "k2"]
    { docs := [], failing := ["a:k1"] }
    { docs := [("b:k2",
        { value := [], «namespace» := ["b"], key := "k2",
          created_at := 0, updated_at := 0 })], failing := ["a:k1"] }
    [Result.none] Err.notConnected (by rfl) (by rfl)

/-! ### Order lemmas for the sort keys -/

theorem charListLt_irrefl : ∀ as : List Char, charListLt as as = false := by
  intro as
  induction as with
  | nil => rfl
  | cons a t ih => simp [charListLt, lt_self_iff_false, ih]

theorem charListLt_trans :
    ∀ {as bs cs : List Char}, charListLt as bs = true → charListLt bs cs = true →
      charListLt as cs = true := by
  intro as
  induction as with
  | nil =>
      intro bs cs h1 h2
      cases bs with
      | nil => exact h2
      | cons b bt =>
          cases cs with
          | nil => simp [charListLt] at h2
          | cons c ct => rfl
  | cons a at' ih =>
      intro bs cs h1 h2
      cases bs with
      | nil => simp [charListLt] at h1
      | cons b bt =>
          cases cs with
          | nil => simp [charListLt] at h2
          | cons c ct =>
              simp only [charListLt] at h1 h2 ⊢
              by_cases hab : a < b
              · by_cases hbc : b < c
                · simp [lt_trans hab hbc]
                · by_cases hbc' : b = c
                  · subst hbc'
                    simp [hab]
                  · simp [hbc, hbc'] at h2
              · by_cases hab' : a = b
                · subst hab'
                  simp only [lt_self_iff_false, if_false, if_pos rfl] at h1
                  by_cases hac : a < c
                  · simp [hac]
                  · by_cases hac' : a = c
                    · subst hac'
                      simp only [lt_self_iff_false, if_false, if_pos rfl] at h2 ⊢
                      exact ih h1 h2
                    · simp [hac, hac'] at h2
                · simp [hab, hab'] at h1

theorem charListLt_trichotomy :
    ∀ as bs : List Char, charListLt as bs = true ∨ as = bs ∨ charListLt bs as = true := by
  intro as
  induction as with
  | nil =>
      intro bs
      cases bs with
      | nil => exact Or.inr (Or.inl rfl)
      | cons b bt => exact Or.inl rfl
  | cons a at' ih =>
      intro bs
      cases bs with
      | nil => exact Or.inr (Or.inr rfl)
      | cons b bt =>
          rcases lt_trichotomy a b with h | h | h
          · exact Or.inl (by simp [charListLt, h])
          · subst h
            rcases ih bt with h' | h' | h'
            · exact Or.inl (by simp [charListLt, lt_self_iff_false, h'])
            · exact Or.inr (Or.inl (by rw [h']))
            · exact Or.inr (Or.inr (by simp [charListLt, lt_self_iff_false, h']))
          · exact Or.inr (Or.inr (by simp [charListLt, h]))

theorem strLtB_irrefl (s : String) : strLtB s s = false :=
  charListLt_irrefl s.data

theorem strLtB_trans {a b c : String} (h1 : strLtB a b = true) (h2 : strLtB b c = true) :
    strLtB a c = true :=
  charListLt_trans h1 h2

theorem strLtB_trichotomy (a b : String) :
    strLtB a b = true ∨ a = b ∨ strLtB b a = true := by
  rcases charListLt_trichotomy a.data b.data with h | h | h
  · exact Or.inl h
  · exact Or.inr (Or.inl (String.ext h))
  · exact Or.inr (Or.inr h)

theorem lexLe_total (a b : List String) : lexLe a b = true ∨ lexLe b a = true := by
  induction a generalizing b with
  | nil => exact Or.inl rfl
  | cons x xs ih =>
      cases b with
      | nil => exact Or.inr rfl
      | cons y ys =>
          rcases strLtB_trichotomy x y with h | h | h
          · exact Or.inl (by simp [lexLe, h])
          · subst h
            rcases ih ys with h' | h'
            · exact Or.inl (by simp [lexLe, strLtB_irrefl, h'])
            · exact Or.inr (by simp [lexLe, strLtB_irrefl, h'])
          · exact Or.inr (by simp [lexLe, h])

theorem lexLe_trans :
    ∀ {a b c : List String}, lexLe a b = true → lexLe b c = true → lexLe a c = true := by
  intro a
  induction a with
  | nil => intro b c h1 h2; rfl
  | cons x xs ih =>
      intro b c h1 h2
      cases b with
      | nil => simp [lexLe] at h1
      | cons y ys =>
          cases c with
          | nil => simp [lexLe] at h2
          | cons z zs =>
              simp only [lexLe] at h1 h2 ⊢
              by_cases hxy : strLtB x y = true
              · by_cases hyz : strLtB y z = true
                · simp [strLtB_trans hxy hyz]
                · by_cases hyz' : y = z
                  · subst hyz'
                    simp [hxy]
                  · simp [hyz, hyz'] at h2
              · by_cases hxy' : x = y
                · subst hxy'
                  simp only [strLtB_irrefl, if_false, if_pos rfl] at h1
                  by_cases hxz : strLtB x z = true
                  · simp [hxz]
                  · by_cases hxz' : x = z
                    · subst hxz'
                      simp only [strLtB_irrefl, if_false, if_pos rfl] at h2 ⊢
                      exact ih h1 h2
                    · simp [hxz, hxz'] at h2
                · simp [hxy, hxy'] at h1

/-! ### Claim about namespace listing -/

/-- Claim C5: the list-namespaces operation returns a page of the
deduplicated, lexicographically sorted sequence of the distinct namespaces
present after filtering and truncation: the output has no duplicate entries
(even when several Items share a namespace), is sorted, equals the
`offset`/`limit` page of the canonical sorted enumeration, and that
enumeration holds exactly the processed namespaces of the stored
documents. -/
theorem list_namespaces_dedup_sorted
    (db : FsDB) (conds : List MatchCond) (maxDepth : Option Nat) (limit offset : Nat)
    (out : List (List String))
    (h : storeListNamespaces conds maxDepth limit offset db = .ok (Result.namespaces out)) :
    out.Nodup ∧
    out.Pairwise (fun a b => lexLe a b = true) ∧
    out = ((sortedNamespaces db conds maxDepth).drop offset).take limit ∧
    (∀ ns, ns ∈ sortedNamespaces db conds maxDepth ↔
      ns ∈ collectedNamespaces db conds maxDepth) := by
  have he : listNamespacesFor db conds maxDepth limit offset = out := by
    simpa [storeListNamespaces, runOp, Except.map] using h
  subst he
  have hperm : List.Perm (sortedNamespaces db conds maxDepth)
      ((collectedNamespaces db conds maxDepth).dedup) :=
    List.perm_insertionSort _ _
  have hnd : (sortedNamespaces db conds maxDepth).Nodup :=
    hperm.nodup_iff.mpr (List.nodup_dedup _)
  have hsorted : List.Pairwise (fun a b => lexLe a b = true) (sortedNamespaces db conds maxDepth) :=
    @List.sorted_insertionSort (List String) (fun a b => lexLe a b = true) _
      ⟨lexLe_total⟩ ⟨fun _ _ _ h1 h2 => lexLe_trans h1 h2⟩ _
  have hsub : List.Sublist (listNamespacesFor db conds maxDepth limit offset)
      (sortedNamespaces db conds maxDepth) :=
    (List.take_sublist _ _).trans (List.drop_sublist _ _)
  refine ⟨hnd.sublist hsub, hsorted.sublist hsub, rfl, fun ns => ?_⟩
  exact hperm.mem_iff.trans (List.mem_dedup)

/-- Witness for C5 at a concrete input: three documents, two of which share
the namespace `["users"]`. -/
theorem list_namespaces_dedup_sorted_witness :
    ([["admins"], ["users"]] : List (List String)).Nodup ∧
    ([["admins"], ["users"]] : List (List String)).Pairwise (fun a b => lexLe a b = true) ∧
    ([["admins"], ["users"]] : List (List String)) =
      ((sortedNamespaces
        ⟨[("users:a", ⟨[], ["users"], "a", 0, 0⟩), ("users:b", ⟨[], ["users"], "b", 0, 0⟩),
          ("admins:c", ⟨[], ["admins"], "c", 0, 0⟩)], []⟩ [] Option.none).drop 0).take 10 ∧
    (∀ ns, ns ∈ sortedNamespaces
        ⟨[("users:a", ⟨[], ["users"], "a", 0, 0⟩), ("users:b", ⟨[], ["users"], "b", 0, 0⟩),
          ("admins:c", ⟨[], ["admins"], "c", 0, 0⟩)], []⟩ [] Option.none ↔
      ns ∈ collectedNamespaces
        ⟨[("users:a", ⟨[], ["users"], "a", 0, 0⟩), ("users:b", ⟨[], ["users"], "b", 0, 0⟩),
          ("admins:c", ⟨[], ["admins"], "c", 0, 0⟩)], []⟩ [] Option.none) :=
  list_namespaces_dedup_sorted
    ⟨[("users:a", ⟨[], ["users"], "a", 0, 0⟩), ("users:b", ⟨[], ["users"], "b", 0, 0⟩),
      ("admins:c", ⟨[], ["admins"], "c", 0, 0⟩)], []⟩ [] Option.none 10 0
    [["admins"], ["users"]] (by rfl)

/-! ### Claim about search pagination -/

theorem three_slices {α : Type} (l : List α) (N : Nat) :
    l.take N ++ ((l.drop N).take N ++ l.drop (N + N)) = l := by
  have h2 : (l.drop N).take N ++ l.drop (N + N) = l.drop N := by
    have h := List.take_append_drop N (l.drop N)
    rwa [List.drop_drop] at h
  rw [h2, List.take_append_drop]

theorem mem_docs_of_mem_searchFiltered {db : FsDB} {pre : List String} {filt : Value}
    {p : String × StoreDoc} (h : p ∈ searchFiltered db pre filt) : p ∈ db.docs := by
  simp only [searchFiltered, streamQuery, streamDocs] at h
  have h1 := (List.filter_sublist _).subset h
  have h2 := (List.filter_sublist _).subset h1
  exact (List.perm_insertionSort _ db.docs).mem_iff.mp h2

theorem nodup_fst_searchFiltered {db : FsDB} (pre : List String) (filt : Value)
    (hnodup : (db.docs.map Prod.fst).Nodup) :
    ((searchFiltered db pre filt).map Prod.fst).Nodup := by
  have hperm : List.Perm (streamDocs db) db.docs := List.perm_insertionSort _ _
  have h1 : ((streamDocs db).map Prod.fst).Nodup :=
    (hperm.map Prod.fst).nodup_iff.mpr hnodup
  have hsub : List.Sublist (searchFiltered db pre filt) (streamDocs db) := by
    simp only [searchFiltered, streamQuery]
    exact (List.filter_sublist _).trans (List.filter_sublist _)
  exact (hsub.map Prod.fst).nodup h1

/-- Claim C4: over a fixed dataset of documents (distinct document ids whose
bodies agree with their ids), the search pages `offset 0, limit N` and
`offset N, limit N` hold disjoint (namespace, key) sets, and together with
the remaining pages (everything beyond position `2N` of the fixed
document-id stream order) they exactly partition the full matching set. -/
theorem search_pages_partition
    (db : FsDB) (pre : List String) (filt : Value) (N : Nat)
    (items1 items2 : List SearchItem)
    (hnodup : (db.docs.map Prod.fst).Nodup)
    (hwf : ∀ p ∈ db.docs, p.1 = makeDocId p.2.«namespace» p.2.key)
    (h1 : storeSearch pre filt N 0 db = .ok (Result.searchResults items1))
    (h2 : storeSearch pre filt N N db = .ok (Result.searchResults items2)) :
    (∀ a ∈ items1, ∀ b ∈ items2,
      ¬(a.«namespace» = b.«namespace» ∧ a.key = b.key)) ∧
    items1 ++ (items2 ++ (allMatches db pre filt).drop (N + N)) =
      allMatches db pre filt := by
  have e1 : searchResultsFor db pre filt N 0 = items1 := by
    simpa [storeSearch, runOp, Except.map] using h1
  have e2 : searchResultsFor db pre filt N N = items2 := by
    simpa [storeSearch, runOp, Except.map] using h2
  subst e1
  subst e2
  have hp1 : searchResultsFor db pre filt N 0 =
      ((searchFiltered db pre filt).take N).map (fun p => toSearchItem p.2) := by
    simp [searchResultsFor]
  have hp2 : searchResultsFor db pre filt N N =
      (((searchFiltered db pre filt).drop N).take N).map (fun p => toSearchItem p.2) := rfl
  have hnd : ((searchFiltered db pre filt).map Prod.fst).Nodup :=
    nodup_fst_searchFiltered pre filt hnodup
  have hnd2 : (((searchFiltered db pre filt).take N ++
      (((searchFiltered db pre filt).drop N).take N ++
        (searchFiltered db pre filt).drop (N + N))).map Prod.fst).Nodup := by
    rw [three_slices]
    exact hnd
  rw [List.map_append, List.map_append] at hnd2
  have hdisj := (List.nodup_append.mp hnd2).2.2
  constructor
  · rw [hp1, hp2]
    intro a ha b hb hcontra
    rcases List.mem_map.mp ha with ⟨p, hpA, rfl⟩
    rcases List.mem_map.mp hb with ⟨q, hqB, rfl⟩
    obtain ⟨hns, hkey⟩ := hcontra
    have hns' : p.2.«namespace» = q.2.«namespace» := hns
    have hkey' : p.2.key = q.2.key := hkey
    have hpfull : p ∈ searchFiltered db pre filt := List.mem_of_mem_take hpA
    have hqfull : q ∈ searchFiltered db pre filt :=
      List.mem_of_mem_drop (List.mem_of_mem_take hqB)
    have hid : p.1 = q.1 := by
      rw [hwf p (mem_docs_of_mem_searchFiltered hpfull),
        hwf q (mem_docs_of_mem_searchFiltered hqfull), hns', hkey']
    have hpa : p.1 ∈ ((searchFiltered db pre filt).take N).map Prod.fst :=
      List.mem_map_of_mem Prod.fst hpA
    have hqb : q.1 ∈ (((searchFiltered db pre filt).drop N).take N).map Prod.fst :=
      List.mem_map_of_mem Prod.fst hqB
    rw [← hid] at hqb
    exact hdisj hpa (List.mem_append.mpr (Or.inl hqb))
  · rw [hp1, hp2]
    have hall : allMatches db pre filt =
        (searchFiltered db pre filt).map (fun p => toSearchItem p.2) := rfl
    rw [hall, ← List.map_drop, ← List.map_append, ← List.map_append, three_slices]

/-- Witness for C4 at a concrete input: five documents, four matching the
namespace `["users"]`, paged with `N = 2`. -/
theorem search_pages_partition_witness :
    (∀ a ∈ [toSearchItem ⟨[], ["users"], "a", 0, 0⟩, toSearchItem ⟨[], ["users"], "b", 0, 0⟩],
     ∀ b ∈ [toSearchItem ⟨[], ["users"], "c", 0, 0⟩, toSearchItem ⟨[], ["users"], "d", 0, 0⟩],
      ¬(a.«namespace» = b.«namespace» ∧ a.key = b.key)) ∧
    [toSearchItem ⟨[], ["users"], "a", 0, 0⟩, toSearchItem ⟨[], ["users"], "b", 0, 0⟩] ++
      ([toSearchItem ⟨[], ["users"], "c", 0, 0⟩, toSearchItem ⟨[], ["users"], "d", 0, 0⟩] ++
        (allMatches
          ⟨[("users:c", ⟨[], ["users"], "c", 0, 0⟩), ("admins:e", ⟨[], ["admins"], "e", 0, 0⟩),
            ("users:a", ⟨[], ["users"], "a", 0, 0⟩), ("users:d", ⟨[], ["users"], "d", 0, 0⟩),
            ("users:b", ⟨[], ["users"], "b", 0, 0⟩)], []⟩ ["users"] []).drop (2 + 2)) =
      allMatches
        ⟨[("users:c", ⟨[], ["users"], "c", 0, 0⟩), ("admins:e", ⟨[], ["admins"], "e", 0, 0⟩),
          ("users:a", ⟨[], ["users"], "a", 0, 0⟩), ("users:d", ⟨[], ["users"], "d", 0, 0⟩),
          ("users:b", ⟨[], ["users"], "b", 0, 0⟩)], []⟩ ["users"] [] :=
  search_pages_partition
    ⟨[("users:c", ⟨[], ["users"], "c", 0, 0⟩), ("admins:e", ⟨[], ["admins"], "e", 0, 0⟩),
      ("users:a", ⟨[], ["users"], "a", 0, 0⟩), ("users:d", ⟨[], ["users"], "d", 0, 0⟩),
      ("users:b", ⟨[], ["users"], "b", 0, 0⟩)], []⟩ ["users"] [] 2
    [toSearchItem ⟨[], ["users"], "a", 0, 0⟩, toSearchItem ⟨[], ["users"], "b", 0, 0⟩]
    [toSearchItem ⟨[], ["users"], "c", 0, 0⟩, toSearchItem ⟨[], ["users"], "d", 0, 0⟩]
    (by decide) (by decide) (by rfl) (by rfl)

/-! ### Helper lemmas about the checkpoint saver model -/

theorem lookup_setField_self (k : String) (v : FieldVal) (m : FieldMap) :
    (setField k v m).lookup k = some v := by
  induction m with
  | nil => simp [setField]
  | cons p t ih =>
      rcases p with ⟨k', v'⟩
      by_cases h : k' = k
      · subst h
        simp [setField]
      · have hne : (k' == k) = false := beq_eq_false_iff_ne.mpr h
        have hne' : (k == k') = false := beq_eq_false_iff_ne.mpr (fun hh => h hh.symm)
        simp [setField, h, List.lookup_cons, hne, hne', ih]

theorem lookup_setField_ne (k k' : String) (v : FieldVal) (m : FieldMap) (h : k' ≠ k) :
    (setField k v m).lookup k' = m.lookup k' := by
  have hne : (k == k') = false := beq_eq_false_iff_ne.mpr (fun hh => h hh.symm)
  have hne' : (k' == k) = false := beq_eq_false_iff_ne.mpr h
  induction m with
  | nil => simp [setField, List.lookup_cons, hne, hne']
  | cons p t ih =>
      rcases p with ⟨k0, v0⟩
      by_cases h0 : k0 = k
      · subst h0
        simp [setField, List.lookup_cons, hne, hne']
      · simp [setField, h0, List.lookup_cons, ih]

theorem lookup_updateAssoc_self {α : Type} (k : String) (dflt : α) (f : α → α)
    (l : List (String × α)) :
    (updateAssoc k dflt f l).lookup k = some (f ((l.lookup k).getD dflt)) := by
  induction l with
  | nil => simp [updateAssoc]
  | cons p t ih =>
      rcases p with ⟨k', v⟩
      by_cases h : k' = k
      · subst h
        simp [updateAssoc]
      · have hne : (k' == k) = false := beq_eq_false_iff_ne.mpr h
        have hne' : (k == k') = false := beq_eq_false_iff_ne.mpr (fun hh => h hh.symm)
        simp [updateAssoc, h, List.lookup_cons, hne, hne', ih]

theorem lookup_updateAssoc_ne {α : Type} (k k' : String) (dflt : α) (f : α → α)
    (l : List (String × α)) (h : k' ≠ k) :
    (updateAssoc k dflt f l).lookup k' = l.lookup k' := by
  have hne : (k == k') = false := beq_eq_false_iff_ne.mpr (fun hh => h hh.symm)
  have hne' : (k' == k) = false := beq_eq_false_iff_ne.mpr h
  induction l with
  | nil => simp [updateAssoc, List.lookup_cons, hne, hne']
  | cons p t ih =>
      rcases p with ⟨k0, v0⟩
      by_cases h0 : k0 = k
      · subst h0
        simp [updateAssoc, List.lookup_cons, hne, hne']
      · simp [updateAssoc, h0, List.lookup_cons, ih]

/-- The two-field timestamp merge is two field writes. -/
theorem mergeFields_timestampData (m : FieldMap) (ttl now : Nat) :
    mergeFields m (timestampData ttl now) =
      setField "expire_at" (FieldVal.time (now + ttl))
        (setField "created_at" (FieldVal.time now) m) := rfl

theorem mergeFields_ts_created (m : FieldMap) (ttl now : Nat) :
    (mergeFields m (timestampData ttl now)).lookup "created_at" =
      some (FieldVal.time now) := by
  rw [mergeFields_timestampData, lookup_setField_ne _ _ _ _ (by decide), lookup_setField_self]

theorem mergeFields_ts_expire (m : FieldMap) (ttl now : Nat) :
    (mergeFields m (timestampData ttl now)).lookup "expire_at" =
      some (FieldVal.time (now + ttl)) := by
  rw [mergeFields_timestampData, lookup_setField_self]

theorem mergeFields_ts_other (m : FieldMap) (ttl now : Nat) (k : String)
    (h1 : k ≠ "created_at") (h2 : k ≠ "expire_at") :
    (mergeFields m (timestampData ttl now)).lookup k = m.lookup k := by
  rw [mergeFields_timestampData, lookup_setField_ne _ _ _ _ h2, lookup_setField_ne _ _ _ _ h1]

/-- With a truthy result config, the timestamp attach updates exactly the
partition document and its checkpoint document. -/
theorem addTimestamps_guard_eq (ttl now : Nat) (cfg : Config) (tid cid : String)
    (db1 : CkptDB)
    (htid : cfg.thread_id = some tid) (hcid : cfg.checkpoint_id = some cid)
    (ht : tid ≠ "") (hc : cid ≠ "") :
    addTimestamps ttl now (some cfg) db1 =
      ⟨updateAssoc (tid ++ "_" ++ cfg.checkpoint_ns) ⟨[], []⟩
        (mergeIntoCheckpoint cid (timestampData ttl now))
        (updateAssoc (tid ++ "_" ++ cfg.checkpoint_ns) ⟨[], []⟩
          (mergeIntoPartition (timestampData ttl now)) db1.docs)⟩ := by
  simp [addTimestamps, htid, hcid, ht, hc]

/-- The partition document after the timestamp attach. -/
theorem getPartition_addTimestamps_self (ttl now : Nat) (cfg : Config) (tid cid : String)
    (db1 : CkptDB)
    (htid : cfg.thread_id = some tid) (hcid : cfg.checkpoint_id = some cid)
    (ht : tid ≠ "") (hc : cid ≠ "") :
    getPartition (addTimestamps ttl now (some cfg) db1) (tid ++ "_" ++ cfg.checkpoint_ns) =
      some (mergeIntoCheckpoint cid (timestampData ttl now)
        (mergeIntoPartition (timestampData ttl now)
          ((db1.docs.lookup (tid ++ "_" ++ cfg.checkpoint_ns)).getD ⟨[], []⟩))) := by
  rw [addTimestamps_guard_eq ttl now cfg tid cid db1 htid hcid ht hc]
  simp only [getPartition]
  rw [lookup_updateAssoc_self, lookup_updateAssoc_self]
  simp

/-! ### Claims about the checkpoint saver -/

/-- Claim C7: every checkpoint written through a saver configured with
`ttl_days` records an `expire_at` equal to the checkpoint's `created_at`
plus `ttl_days` (times are in days; the server-timestamp sentinel resolves
to the write time `now`). -/
theorem expire_at_eq_created_at_add_ttl
    (ttlDays now : Nat) (base : CkptDB → Except Err (Option Config × CkptDB))
    (db db1 : CkptDB) (cfg : Config) (tid cid : String)
    (hbase : base db = .ok (some cfg, db1))
    (htid : cfg.thread_id = some tid) (ht : tid ≠ "")
    (hcid : cfg.checkpoint_id = some cid) (hc : cid ≠ "") :
    ∃ db2 c e,
      saverPut ttlDays now base db = .ok (some cfg, db2) ∧
      checkpointField db2 (tid ++ "_" ++ cfg.checkpoint_ns) cid "created_at" =
        some (FieldVal.time c) ∧
      checkpointField db2 (tid ++ "_" ++ cfg.checkpoint_ns) cid "expire_at" =
        some (FieldVal.time e) ∧
      e = c + ttlDays := by
  refine ⟨addTimestamps ttlDays now (some cfg) db1, now, now + ttlDays, ?_, ?_, ?_, rfl⟩
  · simp [saverPut, hbase]
  · simp only [checkpointField, checkpointDoc,
      getPartition_addTimestamps_self ttlDays now cfg tid cid db1 htid hcid ht hc,
      Option.some_bind, mergeIntoCheckpoint]
    rw [lookup_updateAssoc_self]
    simp only [Option.some_bind]
    exact mergeFields_ts_created _ ttlDays now
  · simp only [checkpointField, checkpointDoc,
      getPartition_addTimestamps_self ttlDays now cfg tid cid db1 htid hcid ht hc,
      Option.some_bind, mergeIntoCheckpoint]
    rw [lookup_updateAssoc_self]
    simp only [Option.some_bind]
    exact mergeFields_ts_expire _ ttlDays now

/-- Witness for C7 at concrete inputs: savers configured with 7 and with 1
TTL days, a base primitive returning config
`{thread_id := "t1", checkpoint_ns := "", checkpoint_id := "c1"}`. -/
theorem expire_at_eq_created_at_add_ttl_witness :
    (∃ db2 c e,
      saverPut 7 100 (fun dbx => .ok (some ⟨some "t1", "", some "c1"⟩, dbx)) ⟨[]⟩ =
        .ok (some ⟨some "t1", "", some "c1"⟩, db2) ∧
      checkpointField db2 ("t1" ++ "_" ++ "") "c1" "created_at" = some (FieldVal.time c) ∧
      checkpointField db2 ("t1" ++ "_" ++ "") "c1" "expire_at" = some (FieldVal.time e) ∧
      e = c + 7) ∧
    (∃ db2 c e,
      saverPut 1 100 (fun dbx => .ok (some ⟨some "t1", "", some "c1"⟩, dbx)) ⟨[]⟩ =
        .ok (some ⟨some "t1", "", some "c1"⟩, db2) ∧
      checkpointField db2 ("t1" ++ "_" ++ "") "c1" "created_at" = some (FieldVal.time c) ∧
      checkpointField db2 ("t1" ++ "_" ++ "") "c1" "expire_at" = some (FieldVal.time e) ∧
      e = c + 1) :=
  ⟨expire_at_eq_created_at_add_ttl 7 100 (fun dbx => .ok (some ⟨some "t1", "", some "c1"⟩, dbx))
      ⟨[]⟩ ⟨[]⟩ ⟨some "t1", "", some "c1"⟩ "t1" "c1" rfl rfl (by decide) rfl (by decide),
    expire_at_eq_created_at_add_ttl 1 100 (fun dbx => .ok (some ⟨some "t1", "", some "c1"⟩, dbx))
      ⟨[]⟩ ⟨[]⟩ ⟨some "t1", "", some "c1"⟩ "t1" "c1" rfl rfl (by decide) rfl (by decide)⟩

/-- Claim C8: on a successful base write returning a config with truthy
`thread_id` and `checkpoint_id`, the saver merges `created_at`/`expire_at`
onto both the partition record `"{thread_id}_{checkpoint_ns}"` and the
checkpoint record, leaving every other field of those two documents and
every other document unchanged; and when the base write raises, the error
propagates with no timestamp write attempted. -/
theorem put_timestamps_frame
    (ttlDays now : Nat) (base : CkptDB → Except Err (Option Config × CkptDB))
    (db db1 : CkptDB) (cfg : Config) (tid cid : String)
    (hbase : base db = .ok (some cfg, db1))
    (htid : cfg.thread_id = some tid) (ht : tid ≠ "")
    (hcid : cfg.checkpoint_id = some cid) (hc : cid ≠ "") :
    ∃ db2,
      saverPut ttlDays now base db = .ok (some cfg, db2) ∧
      partitionField db2 (tid ++ "_" ++ cfg.checkpoint_ns) "created_at" =
        some (FieldVal.time now) ∧
      partitionField db2 (tid ++ "_" ++ cfg.checkpoint_ns) "expire_at" =
        some (FieldVal.time (now + ttlDays)) ∧
      checkpointField db2 (tid ++ "_" ++ cfg.checkpoint_ns) cid "created_at" =
        some (FieldVal.time now) ∧
      checkpointField db2 (tid ++ "_" ++ cfg.checkpoint_ns) cid "expire_at" =
        some (FieldVal.time (now + ttlDays)) ∧
      (∀ k, k ≠ "created_at" → k ≠ "expire_at" →
        partitionField db2 (tid ++ "_" ++ cfg.checkpoint_ns) k =
          partitionField db1 (tid ++ "_" ++ cfg.checkpoint_ns) k ∧
        checkpointField db2 (tid ++ "_" ++ cfg.checkpoint_ns) cid k =
          checkpointField db1 (tid ++ "_" ++ cfg.checkpoint_ns) cid k) ∧
      (∀ pid', pid' ≠ tid ++ "_" ++ cfg.checkpoint_ns →
        getPartition db2 pid' = getPartition db1 pid') ∧
      (∀ cid', cid' ≠ cid →
        checkpointDoc db2 (tid ++ "_" ++ cfg.checkpoint_ns) cid' =
          checkpointDoc db1 (tid ++ "_" ++ cfg.checkpoint_ns) cid') ∧
      (∀ (base' : CkptDB → Except Err (Option Config × CkptDB)) (db' : CkptDB) (e : Err),
        base' db' = .error e → saverPut ttlDays now base' db' = .error e) := by
  have hpart := getPartition_addTimestamps_self ttlDays now cfg tid cid db1 htid hcid ht hc
  have hguard := addTimestamps_guard_eq ttlDays now cfg tid cid db1 htid hcid ht hc
  refine ⟨addTimestamps ttlDays now (some cfg) db1, by simp [saverPut, hbase],
    ?_, ?_, ?_, ?_, ?_, ?_, ?_, ?_⟩
  · simp only [partitionField, hpart, Option.some_bind, mergeIntoCheckpoint, mergeIntoPartition]
    exact mergeFields_ts_created _ ttlDays now
  · simp only [partitionField, hpart, Option.some_bind, mergeIntoCheckpoint, mergeIntoPartition]
    exact mergeFields_ts_expire _ ttlDays now
  · simp only [checkpointField, checkpointDoc, hpart, Option.some_bind, mergeIntoCheckpoint]
    rw [lookup_updateAssoc_self]
    simp only [Option.some_bind]
    exact mergeFields_ts_created _ ttlDays now
  · simp only [checkpointField, checkpointDoc, hpart, Option.some_bind, mergeIntoCheckpoint]
    rw [lookup_updateAssoc_self]
    simp only [Option.some_bind]
    exact mergeFields_ts_expire _ ttlDays now
  · intro k hk1 hk2
    constructor
    · simp only [partitionField, hpart, Option.some_bind, mergeIntoCheckpoint,
        mergeIntoPartition]
      rw [mergeFields_ts_other _ ttlDays now k hk1 hk2]
      cases hl : List.lookup (tid ++ "_" ++ cfg.checkpoint_ns) db1.docs with
      | none => simp [partitionField, getPartition, hl]
      | some p => simp [partitionField, getPartition, hl]
    · simp only [checkpointField, checkpointDoc, hpart, Option.some_bind,
        mergeIntoCheckpoint, mergeIntoPartition]
      rw [lookup_updateAssoc_self]
      simp only [Option.some_bind]
      rw [mergeFields_ts_other _ ttlDays now k hk1 hk2]
      cases hl : List.lookup (tid ++ "_" ++ cfg.checkpoint_ns) db1.docs with
      | none => simp [checkpointField, checkpointDoc, getPartition, hl]
      | some p =>
          cases hc2 : List.lookup cid p.checkpoints with
          | none => simp [checkpointField, checkpointDoc, getPartition, hl, hc2]
          | some m => simp [checkpointField, checkpointDoc, getPartition, hl, hc2]
  · intro pid' hpid
    simp only [getPartition, hguard]
    rw [lookup_updateAssoc_ne _ _ _ _ _ hpid, lookup_updateAssoc_ne _ _ _ _ _ hpid]
  · intro cid' hcid'
    simp only [checkpointDoc, hpart, Option.some_bind, mergeIntoCheckpoint, mergeIntoPartition]
    rw [lookup_updateAssoc_ne _ _ _ _ _ hcid']
    cases hl : List.lookup (tid ++ "_" ++ cfg.checkpoint_ns) db1.docs with
    | none => simp [checkpointDoc, getPartition, hl]
    | some p => simp [checkpointDoc, getPartition, hl]
  · intro base' db' e h
    simp [saverPut, h]

/-- Witness for C8 at a concrete input: a base primitive writing nothing and
returning config `{thread_id := "t1", checkpoint_ns := "", checkpoint_id :=
"c1"}` over an empty checkpoint collection, with `ttl_days = 7` at write
time 5. -/
theorem put_timestamps_frame_witness :
    ∃ db2,
      saverPut 7 5 (fun dbx => .ok (some ⟨some "t1", "", some "c1"⟩, dbx)) ⟨[]⟩ =
        .ok (some ⟨some "t1", "", some "c1"⟩, db2) ∧
      partitionField db2 ("t1" ++ "_" ++ "") "created_at" = some (FieldVal.time 5) ∧
      partitionField db2 ("t1" ++ "_" ++ "") "expire_at" = some (FieldVal.time (5 + 7)) ∧
      checkpointField db2 ("t1" ++ "_" ++ "") "c1" "created_at" = some (FieldVal.time 5) ∧
      checkpointField db2 ("t1" ++ "_" ++ "") "c1" "expire_at" = some (FieldVal.time (5 + 7)) ∧
      (∀ k, k ≠ "created_at" → k ≠ "expire_at" →
        partitionField db2 ("t1" ++ "_" ++ "") k =
          partitionField ⟨[]⟩ ("t1" ++ "_" ++ "") k ∧
        checkpointField db2 ("t1" ++ "_" ++ "") "c1" k =
          checkpointField ⟨[]⟩ ("t1" ++ "_" ++ "") "c1" k) ∧
      (∀ pid', pid' ≠ "t1" ++ "_" ++ "" →
        getPartition db2 pid' = getPartition ⟨[]⟩ pid') ∧
      (∀ cid', cid' ≠ "c1" →
        checkpointDoc db2 ("t1" ++ "_" ++ "") cid' =
          checkpointDoc ⟨[]⟩ ("t1" ++ "_" ++ "") cid') ∧
      (∀ (base' : CkptDB → Except Err (Option Config × CkptDB)) (db' : CkptDB) (e : Err),
        base' db' = .error e → saverPut 7 5 base' db' = .error e) :=
  put_timestamps_frame 7 5 (fun dbx => .ok (some ⟨some "t1", "", some "c1"⟩, dbx))
    ⟨[]⟩ ⟨[]⟩ ⟨some "t1", "", some "c1"⟩ "t1" "c1" rfl rfl (by decide) rfl (by decide)

end EagleAgent
